import Mathlib

/-!
Verification of the BlackRoad Education assessment engine
(`src/assessment.py`): data model, grading engine, attempt lifecycle,
analytics question ranking and the adaptive quiz selector, embedded
shallowly in Lean.  The SQLite store is modelled as lists of rows;
Python dicts keyed by strings are association lists with last-write-wins
update; Python floats produced by `round(x, n)` are modelled as rationals
with round-half-to-even at `n` decimal places.
-/

namespace Assessment

/-- A row of the `questions` table / the `Question` dataclass.
`options` is kept as the raw list of (id, text) pairs; it never
influences grading. -/
structure Question where
  id : String
  text : String
  type : String            -- multiple_choice | true_false | short_answer | multi_select
  options : List (String × String)
  correct_answer : String
  difficulty : String      -- easy | medium | hard
  tags : List String
  explanation : String
  points : Nat
  created_at : String
  deriving DecidableEq

/-- A row of the `quizzes` table / the `Quiz` dataclass. -/
structure Quiz where
  id : String
  title : String
  description : String
  question_ids : List String
  time_limit_mins : Nat
  passing_score : ℚ
  shuffle_questions : Bool
  shuffle_options : Bool
  allow_review : Bool
  max_attempts : Nat
  created_at : String
  deriving DecidableEq

/-- A row of the `attempts` table / the `Attempt` dataclass.
`answers` is the JSON-encoded dict mapping question id to raw answer. -/
structure Attempt where
  id : String
  quiz_id : String
  student_id : String
  answers : List (String × String)
  score : Option ℚ
  started_at : String
  completed_at : Option String
  time_taken_mins : Option ℚ
  passed : Option Bool
  deriving DecidableEq

/-- A row of the `question_results` table. -/
structure QuestionResult where
  id : String
  attempt_id : String
  question_id : String
  student_answer : String
  is_correct : Bool
  points_earned : Nat
  points_possible : Nat
  deriving DecidableEq

/-- The persistent store: the four relational tables. -/
structure DB where
  questions : List Question
  quizzes : List Quiz
  attempts : List Attempt
  question_results : List QuestionResult
  deriving DecidableEq

/-- The empty database produced by `init_db`. -/
def DB.init : DB := ⟨[], [], [], []⟩

/-- The uniform error payloads (the error-message dicts) of the public API. -/
inductive ApiError where
  | notFound (what : String)
  | limitExceeded (maxAttempts : Nat)
  | alreadyCompleted
  | noCandidates
  deriving DecidableEq

-- ── Python dict / string helpers ────────────────────────────────────────────

/-- Python `answers.get(k, "")` on a string-keyed dict. -/
def dictGet (answers : List (String × String)) (k : String) : String :=
  match answers.find? (fun p => p.1 == k) with
  | some p => p.2
  | none => ""

/-- Python `answers[k] = v` on a string-keyed dict (last write wins). -/
def dictSet (answers : List (String × String)) (k v : String) :
    List (String × String) :=
  if answers.any (fun p => p.1 == k) then
    answers.map (fun p => if p.1 == k then (k, v) else p)
  else
    answers ++ [(k, v)]

/-- Python truthiness of a nullable string column (`if row["completed_at"]:`):
`None` and `""` are falsy, every other string is truthy. -/
def pyTruthyStr : Option String → Bool
  | none => false
  | some s => !(s == "")

/-- The whitespace stripped by Python's `str.strip()` (ASCII range). -/
def pyIsSpace (c : Char) : Bool :=
  c == ' ' || c == '\t' || c == '\n' || c == '\r' || c == '\x0b' || c == '\x0c'

/-- Python `s.strip()` on the underlying character list. -/
def trimChars (l : List Char) : List Char :=
  ((l.dropWhile pyIsSpace).reverse.dropWhile pyIsSpace).reverse

/-- Python `s.strip()`. -/
def pyStrip (s : String) : String := String.mk (trimChars s.data)

/-- Python `s.strip().lower()`. -/
def pyNormalize (s : String) : String :=
  String.mk ((trimChars s.data).map Char.toLower)

/-- Python `s[:n]`: the first `n` characters. -/
def pyTake (s : String) (n : Nat) : String := String.mk (s.data.take n)

/-- Does `hay` begin with `needle`?  (Helper for Python's substring test.) -/
def beginsWith : List Char → List Char → Bool
  | [], _ => true
  | _ :: _, [] => false
  | c :: cs, d :: ds => c == d && beginsWith cs ds

/-- Python's `needle in hay` on strings: contiguous-substring containment,
over the underlying character lists. -/
def containsSeg (hay needle : List Char) : Bool :=
  beginsWith needle hay ||
    match hay with
    | [] => false
    | _ :: t => containsSeg t needle

/-- Python `s.split(",")` on the underlying character list: `cur` is the
(reversed) chunk being accumulated. -/
def splitCommaAux : List Char → List Char → List (List Char)
  | [], cur => [cur.reverse]
  | c :: rest, cur =>
    if c == ',' then cur.reverse :: splitCommaAux rest []
    else splitCommaAux rest (c :: cur)

/-- Python `s.split(",")`. -/
def splitComma (s : String) : List String :=
  (splitCommaAux s.data []).map String.mk

/-- The multi-select token list, before Python turns it into a set:
split on commas, strip every token, drop the empty ones. -/
def msTokens (s : String) : List String :=
  ((splitComma s).map pyStrip).filter (fun t => !(t == ""))

/-- Python `", ".join(xs)`. -/
def joinCommaSpace : List String → String
  | [] => ""
  | [t] => t
  | t :: rest => t ++ ", " ++ joinCommaSpace rest

/-- Python `set(xs) == set(ys)` for string lists: mutual membership. -/
def listSetEq (xs ys : List String) : Bool :=
  xs.all (fun x => ys.contains x) && ys.all (fun y => xs.contains y)

-- ── Python rounding ─────────────────────────────────────────────────────────

/-- Round a rational to the nearest integer, ties to even (the rounding
used by Python's `round`), computed on the reduced fraction with integer
arithmetic only: `f` is the floor (the denominator is positive, so
flooring is `fdiv`), `rem/den` the fractional part. -/
def roundHalfEven (q : ℚ) : ℤ :=
  let f := q.num.fdiv q.den
  let rem := q.num - f * q.den
  if 2 * rem < (q.den : ℤ) then f
  else if (q.den : ℤ) < 2 * rem then f + 1
  else if f % 2 = 0 then f else f + 1

/-- The product `q * k` for an integer scale factor, via `Rat.divInt` (which, unlike
`Rat.mul`, evaluates inside the kernel). -/
def qScale (q : ℚ) (k : ℤ) : ℚ := Rat.divInt (q.num * k) q.den

/-- Python `round(x, 2)`. -/
def round2 (q : ℚ) : ℚ := Rat.divInt (roundHalfEven (qScale q 100)) 100

/-- Python `round(x, 1)`. -/
def round1 (q : ℚ) : ℚ := Rat.divInt (roundHalfEven (qScale q 10)) 10

/-- The exact percentage `c / t * 100` (and `0` when `t = 0`, matching
`Rat.divInt _ 0 = 0`). -/
def pctExact (c t : Nat) : ℚ := Rat.divInt ((c : ℤ) * 100) (t : ℤ)

/-- Python's `a <= b` on floats, modelled on exact rationals by
cross-multiplication (denominators are positive). -/
def qLe (a b : ℚ) : Bool := a.num * (b.den : ℤ) ≤ b.num * (a.den : ℤ)

-- ── Store lookups ───────────────────────────────────────────────────────────

/-- The lookup `get_question`: `SELECT * FROM questions WHERE id=?` (first match). -/
def get_question (db : DB) (question_id : String) : Option Question :=
  db.questions.find? (fun q => q.id == question_id)

/-- The lookup `get_quiz`: `SELECT * FROM quizzes WHERE id=?` (first match). -/
def get_quiz (db : DB) (quiz_id : String) : Option Quiz :=
  db.quizzes.find? (fun q => q.id == quiz_id)

/-- The lookup `get_quiz_questions`: resolve the quiz's question ids, silently
skipping every id that no longer resolves in the question store. -/
def get_quiz_questions (db : DB) (quiz_id : String) : List Question :=
  match get_quiz db quiz_id with
  | none => []
  | some quiz => quiz.question_ids.filterMap (get_question db)

/-- The listing `list_questions`: optional difficulty filter in SQL, then an optional
any-tag-overlap filter in Python (`if tags:` — an empty tag list means
no tag filtering). -/
def list_questions (db : DB) (tags : List String) (difficulty : Option String) :
    List Question :=
  let rows :=
    match difficulty with
    | some d => db.questions.filter (fun q => q.difficulty == d)
    | none => db.questions
  if tags.isEmpty then rows
  else rows.filter (fun q => tags.any (fun t => q.tags.contains t))

-- ── Grading engine ──────────────────────────────────────────────────────────

/-- One entry of `grade_attempt_dict`'s `results` list. -/
structure GradeEntry where
  question_id : String
  question_text : String
  student_answer : String
  correct_answer : String
  is_correct : Bool
  points_earned : Nat
  points_possible : Nat
  explanation : String
  deriving DecidableEq

/-- The per-question correctness decision of `grade_attempt_dict`, applied to
the already-normalized student answer and correct answer. -/
def answer_is_correct (qType student_answer correct : String) : Bool :=
  if qType == "multiple_choice" || qType == "true_false" then
    student_answer == correct
  else if qType == "multi_select" then
    listSetEq (msTokens student_answer) (msTokens correct)
  else if qType == "short_answer" then
    containsSeg student_answer.toList correct.toList || student_answer == correct
  else
    false

/-- Correctness of one question against the attempt's raw answers dict,
with the normalization done by `grade_attempt_dict`
(`answers.get(q.id, "").strip().lower()` vs `q.correct_answer.strip().lower()`). -/
def question_is_correct (q : Question) (answers : List (String × String)) : Bool :=
  answer_is_correct q.type (pyNormalize (dictGet answers q.id))
    (pyNormalize q.correct_answer)

/-- The `results.append({...})` record built for one question. -/
def gradeEntry (answers : List (String × String)) (q : Question) : GradeEntry :=
  let is_correct := question_is_correct q answers
  { question_id := q.id
    question_text := pyTake q.text 60
    student_answer := pyNormalize (dictGet answers q.id)
    correct_answer := q.correct_answer
    is_correct := is_correct
    points_earned := if is_correct then q.points else 0
    points_possible := q.points
    explanation := q.explanation }

/-- Accumulator of `grade_attempt_dict`'s loop over the quiz's questions. -/
structure GradeAcc where
  total_points : Nat
  earned_points : Nat
  correct : Nat
  results : List GradeEntry
  deriving DecidableEq

/-- The grading loop: one pass over the (resolved) quiz questions, in order,
accumulating total points, earned points, correct count and result entries. -/
def gradeQuestions (answers : List (String × String)) :
    List Question → GradeAcc
  | [] => ⟨0, 0, 0, []⟩
  | q :: rest =>
    let acc := gradeQuestions answers rest
    let e := gradeEntry answers q
    ⟨q.points + acc.total_points,
     e.points_earned + acc.earned_points,
     (if e.is_correct then 1 else 0) + acc.correct,
     e :: acc.results⟩

/-- The full output dict of `grade_attempt_dict`. -/
structure GradeResult where
  score : ℚ
  correct : Nat
  total : Nat
  earned_points : Nat
  total_points : Nat
  results : List GradeEntry
  deriving DecidableEq

/-- The grading engine `grade_attempt_dict`: grade the attempt's answers against the quiz's
currently-resolvable questions; score is `round(earned/total*100, 2)` when
`total_points > 0` and exactly `0.0` otherwise. -/
def grade_attempt_dict (db : DB) (answers : List (String × String))
    (quiz_id : String) : GradeResult :=
  let questions := get_quiz_questions db quiz_id
  let acc := gradeQuestions answers questions
  { score :=
      if acc.total_points > 0 then
        round2 (pctExact acc.earned_points acc.total_points)
      else 0
    correct := acc.correct
    total := questions.length
    earned_points := acc.earned_points
    total_points := acc.total_points
    results := acc.results }

-- ── Attempt lifecycle ───────────────────────────────────────────────────────

/-- The count `SELECT COUNT(*) FROM attempts WHERE quiz_id=? AND student_id=?`:
counts attempts of any status (no completion filter). -/
def countPrevAttempts (db : DB) (quiz_id student_id : String) : Nat :=
  (db.attempts.filter
    (fun a => a.quiz_id == quiz_id && a.student_id == student_id)).length

/-- The fresh `Attempt` row built by `start_attempt`: empty answers,
null score / completed_at / time_taken_mins / passed. -/
def newAttempt (new_id quiz_id student_id started_at : String) : Attempt :=
  { id := new_id, quiz_id := quiz_id, student_id := student_id
    answers := [], score := none, started_at := started_at
    completed_at := none, time_taken_mins := none, passed := none }

/-- The operation `start_attempt`.  The fresh uuid and the `_now()` timestamp are inputs.
Returns the post-state together with the result; an error leaves the
store untouched. -/
def start_attempt (db : DB) (quiz_id student_id new_id started_at : String) :
    DB × Except ApiError Attempt :=
  match get_quiz db quiz_id with
  | none => (db, .error (.notFound quiz_id))
  | some quiz =>
    if countPrevAttempts db quiz_id student_id ≥ quiz.max_attempts then
      (db, .error (.limitExceeded quiz.max_attempts))
    else
      let attempt := newAttempt new_id quiz_id student_id started_at
      ({ db with attempts := db.attempts ++ [attempt] }, .ok attempt)

/-- The row lookup `SELECT ... FROM attempts WHERE id=?` (first match). -/
def getAttemptRow (db : DB) (attempt_id : String) : Option Attempt :=
  db.attempts.find? (fun a => a.id == attempt_id)

/-- The operation `submit_answer`: reject unknown attempts and attempts whose
`completed_at` is truthy, otherwise upsert the answer. -/
def submit_answer (db : DB) (attempt_id question_id answer : String) :
    DB × Except ApiError Unit :=
  match getAttemptRow db attempt_id with
  | none => (db, .error (.notFound attempt_id))
  | some a =>
    if pyTruthyStr a.completed_at then
      (db, .error .alreadyCompleted)
    else
      let a' := { a with answers := dictSet a.answers question_id answer }
      ({ db with attempts :=
          db.attempts.map (fun b => if b.id == attempt_id then a' else b) },
       .ok ())

/-- The `question_results` rows inserted by `complete_attempt`: one per
grade entry, each with a fresh uuid (modelled by `mkId` on the row index). -/
def mkQuestionResults (mkId : Nat → String) (attempt_id : String) :
    Nat → List GradeEntry → List QuestionResult
  | _, [] => []
  | i, r :: rest =>
    { id := mkId i, attempt_id := attempt_id, question_id := r.question_id
      student_answer := r.student_answer, is_correct := r.is_correct
      points_earned := r.points_earned, points_possible := r.points_possible }
      :: mkQuestionResults mkId attempt_id (i + 1) rest

/-- The summary dict returned by a successful `complete_attempt`. -/
structure CompleteSummary where
  attempt_id : String
  score : ℚ
  passed : Bool
  time_taken_mins : ℚ
  correct : Nat
  total : Nat
  results : List GradeEntry
  deriving DecidableEq

/-- The operation `complete_attempt`.  The current time enters as the `now` timestamp
plus the already-computed elapsed minutes `(now - started_at)/60`; the
fresh uuids of the result rows enter as `mkId`.  On success the attempt
row gets `completed_at`, `score`, `time_taken_mins` (rounded to 2
decimals) and `passed = score ≥ quiz.passing_score` (false when the quiz
no longer resolves), and one `question_results` row is inserted per
graded question. -/
def complete_attempt (db : DB) (attempt_id now : String) (elapsed_mins : ℚ)
    (mkId : Nat → String) : DB × Except ApiError CompleteSummary :=
  match getAttemptRow db attempt_id with
  | none => (db, .error (.notFound attempt_id))
  | some a =>
    if pyTruthyStr a.completed_at then
      (db, .error .alreadyCompleted)
    else
      let grade := grade_attempt_dict db a.answers a.quiz_id
      let passed :=
        match get_quiz db a.quiz_id with
        | some quiz => qLe quiz.passing_score grade.score
        | none => false
      let a' := { a with
                  completed_at := some now
                  score := some grade.score
                  time_taken_mins := some (round2 elapsed_mins)
                  passed := some passed }
      let qrs := mkQuestionResults mkId attempt_id 0 grade.results
      ({ db with
          attempts :=
            db.attempts.map (fun b => if b.id == attempt_id then a' else b)
          question_results := db.question_results ++ qrs },
       .ok { attempt_id := attempt_id, score := grade.score, passed := passed
             time_taken_mins := round2 elapsed_mins, correct := grade.correct
             total := grade.total, results := grade.results })

-- ── Reachability ────────────────────────────────────────────────────────────

/-- One public operation on the store.  Catalog edits (question / quiz
creation — and, generously, arbitrary replacement of those two tables)
never touch attempts or results.  `_now()` timestamps are ISO strings and
hence never empty, and `_uid()` never collides with a stored attempt id;
both environmental facts are recorded as side conditions. -/
inductive Step : DB → DB → Prop
  | catalog (db : DB) (qs : List Question) (zs : List Quiz) :
      Step db { db with questions := qs, quizzes := zs }
  | start (db : DB) (quiz_id student_id new_id started_at : String)
      (hfresh : ∀ a ∈ db.attempts, a.id ≠ new_id) :
      Step db (start_attempt db quiz_id student_id new_id started_at).1
  | submit (db : DB) (attempt_id question_id answer : String) :
      Step db (submit_answer db attempt_id question_id answer).1
  | complete (db : DB) (attempt_id now : String) (elapsed_mins : ℚ)
      (mkId : Nat → String) (hnow : now ≠ "") :
      Step db (complete_attempt db attempt_id now elapsed_mins mkId).1

/-- States reachable from the freshly-initialized store through the
public operations. -/
def Reachable (db : DB) : Prop :=
  Relation.ReflTransGen Step DB.init db

-- ── Analytics: per-question ranking ─────────────────────────────────────────

/-- One entry of `get_analytics`'s `question_stats` list. -/
structure QuestionStat where
  question_id : String
  question_text : String
  difficulty : String
  correct_rate : Option ℚ
  total_answers : Nat
  deriving DecidableEq

/-- The per-question stat row: results for this question belonging to
completed attempts of this quiz, `correct_rate = round(correct/total*100, 1)`
or null when no answers were recorded. -/
def questionStatFor (db : DB) (quiz_id qid : String) (q : Question) :
    QuestionStat :=
  let rs := db.question_results.filter (fun qr =>
    qr.question_id == qid &&
      db.attempts.any (fun a =>
        a.id == qr.attempt_id && a.quiz_id == quiz_id && a.completed_at.isSome))
  let correct_n := (rs.filter (fun r => r.is_correct)).length
  let total_n := rs.length
  { question_id := qid
    question_text := pyTake q.text 80
    difficulty := q.difficulty
    correct_rate :=
      if total_n > 0 then some (round1 (pctExact correct_n total_n))
      else none
    total_answers := total_n }

/-- The analytics engine's unsorted `question_stats`: one row per quiz question
still resolvable in the question store, in quiz order. -/
def questionStats (db : DB) (quiz_id : String) : List QuestionStat :=
  match get_quiz db quiz_id with
  | none => []
  | some quiz =>
    quiz.question_ids.filterMap (fun qid =>
      (get_question db qid).map (fun q => questionStatFor db quiz_id qid q))

/-- The sort key `x["correct_rate"] or 100`: Python's `or` replaces every
falsy value — both `None` and `0.0` — by `100`. -/
def statSortKey (s : QuestionStat) : ℚ :=
  match s.correct_rate with
  | none => 100
  | some r => if r = 0 then 100 else r

/-- Stable insertion of a stat in front of the first strictly-greater key. -/
def statInsert (a : QuestionStat) : List QuestionStat → List QuestionStat
  | [] => [a]
  | b :: rest =>
    if qLe (statSortKey a) (statSortKey b) then a :: b :: rest
    else b :: statInsert a rest

/-- The sort `question_stats.sort(key=lambda x: (x["correct_rate"] or 100))`.
Python's `list.sort` is stable, and a stable sort by a total key is
extensionally unique, so stable insertion sort is a faithful model. -/
def statSort : List QuestionStat → List QuestionStat
  | [] => []
  | a :: rest => statInsert a (statSort rest)

/-- The sorted `question_stats` list of `get_analytics`. -/
def sortedQuestionStats (db : DB) (quiz_id : String) : List QuestionStat :=
  statSort (questionStats db quiz_id)

/-- The slice `"hardest_questions": question_stats[:3]` (after the sort). -/
def hardestQuestions (db : DB) (quiz_id : String) : List QuestionStat :=
  (sortedQuestionStats db quiz_id).take 3

/-- The slice `"easiest_questions": list(reversed(question_stats[-3:]))`. -/
def easiestQuestions (db : DB) (quiz_id : String) : List QuestionStat :=
  ((sortedQuestionStats db quiz_id).drop
    ((sortedQuestionStats db quiz_id).length - 3)).reverse

-- ── Adaptive selector ───────────────────────────────────────────────────────

/-- The `answered_correctly` set of `build_adaptive_quiz`:
`SELECT DISTINCT qr.question_id FROM question_results qr JOIN attempts a
ON qr.attempt_id = a.id WHERE a.student_id=? AND qr.is_correct=1`. -/
def answeredCorrectly (db : DB) (student_id qid : String) : Bool :=
  db.question_results.any (fun qr =>
    qr.question_id == qid && qr.is_correct &&
      db.attempts.any (fun a =>
        a.id == qr.attempt_id && a.student_id == student_id))

/-- The selector `build_adaptive_quiz`: filter the tag+difficulty pool by the exclusion
set; if fewer than `num_questions` survive, replace the pool by the
any-difficulty pool (same exclusion); error when the final pool is empty,
otherwise create a quiz from the first `num_questions` candidates. -/
def build_adaptive_quiz (db : DB) (student_id : String)
    (topic_tags : List String) (target_difficulty : String)
    (num_questions : Nat) (new_quiz_id created_at : String) :
    DB × Except ApiError Quiz :=
  let all_qs := list_questions db topic_tags (some target_difficulty)
  let candidates0 :=
    all_qs.filter (fun q => !(answeredCorrectly db student_id q.id))
  let candidates :=
    if candidates0.length < num_questions then
      (list_questions db topic_tags none).filter
        (fun q => !(answeredCorrectly db student_id q.id))
    else candidates0
  if candidates.isEmpty then (db, .error .noCandidates)
  else
    let selected := candidates.take num_questions
    let quiz : Quiz :=
      { id := new_quiz_id
        title := "Adaptive Quiz – " ++ joinCommaSpace (topic_tags.take 3)
        description := "Auto-generated adaptive quiz for student " ++ student_id
        question_ids := selected.map (fun q => q.id)
        time_limit_mins := selected.length * 3
        passing_score := 70
        shuffle_questions := false, shuffle_options := false
        allow_review := true, max_attempts := 3, created_at := created_at }
    ({ db with quizzes := db.quizzes ++ [quiz] }, .ok quiz)


end Assessment


namespace Assessment

-- ── Grading lemmas ──────────────────────────────────────────────────────────

/-- The loop's running total is the sum of the points of the questions
it visits. -/
lemma gradeQuestions_total_points (answers : List (String × String))
    (qs : List Question) :
    (gradeQuestions answers qs).total_points = (qs.map Question.points).sum := by
  induction qs with
  | nil => rfl
  | cons q rest ih => simp [gradeQuestions, ih]

/-- The loop emits one result entry per visited question. -/
lemma gradeQuestions_results_length (answers : List (String × String))
    (qs : List Question) :
    (gradeQuestions answers qs).results.length = qs.length := by
  induction qs with
  | nil => rfl
  | cons q rest ih => simp [gradeQuestions, ih]

/-- Each result entry records the question's own points as
`points_possible`, so their sum is again the sum of points. -/
lemma gradeQuestions_results_points (answers : List (String × String))
    (qs : List Question) :
    ((gradeQuestions answers qs).results.map
        (fun r => r.points_possible)).sum = (qs.map Question.points).sum := by
  induction qs with
  | nil => rfl
  | cons q rest ih => simp [gradeQuestions, gradeEntry, ih]

/-- The percentage `c/t*100` written with `Rat.divInt` agrees with the field operations
(also at `t = 0`, where both sides are `0`). -/
lemma pctExact_eq (c t : Nat) : pctExact c t = (c : ℚ) / (t : ℚ) * 100 := by
  unfold pctExact
  rw [Rat.divInt_eq_div]
  push_cast
  ring

/-- C5: the grading engine's score: exactly 0 when the graded questions'
points sum to 0 (no questions, or all zero-point), and otherwise
`round(earned/total*100, 2)`. -/
theorem grade_score_formula (db : DB) (answers : List (String × String))
    (quiz_id : String) :
    (grade_attempt_dict db answers quiz_id).score =
      if ((get_quiz_questions db quiz_id).map Question.points).sum = 0 then 0
      else
        round2 (((grade_attempt_dict db answers quiz_id).earned_points : ℚ)
          / ((((get_quiz_questions db quiz_id).map Question.points).sum : Nat) : ℚ)
          * 100) := by
  unfold grade_attempt_dict
  simp only [gradeQuestions_total_points, pctExact_eq]
  rcases Nat.eq_zero_or_pos ((get_quiz_questions db quiz_id).map Question.points).sum
    with h | h
  · simp [h]
  · simp [h, Nat.pos_iff_ne_zero.mp h]

/-- The rows inserted into `question_results` carry the grade entries'
`points_possible` unchanged. -/
lemma mkQuestionResults_map_points (mkId : Nat → String) (aid : String)
    (i : Nat) (rs : List GradeEntry) :
    (mkQuestionResults mkId aid i rs).map (fun r => r.points_possible)
      = rs.map (fun r => r.points_possible) := by
  induction rs generalizing i with
  | nil => rfl
  | cons r rest ih => simp [mkQuestionResults, ih]

/-- The `total_points` of a graded attempt, as a sum over the resolved questions. -/
lemma grade_total_points_eq (db : DB) (answers : List (String × String))
    (quiz_id : String) :
    (grade_attempt_dict db answers quiz_id).total_points
      = ((get_quiz_questions db quiz_id).map Question.points).sum := by
  simp [grade_attempt_dict, gradeQuestions_total_points]

/-- The `total` of a graded attempt counts the resolved questions. -/
lemma grade_total_eq (db : DB) (answers : List (String × String))
    (quiz_id : String) :
    (grade_attempt_dict db answers quiz_id).total
      = (get_quiz_questions db quiz_id).length := by
  simp [grade_attempt_dict]

/-- One grade entry per resolved question. -/
lemma grade_results_length_eq (db : DB) (answers : List (String × String))
    (quiz_id : String) :
    (grade_attempt_dict db answers quiz_id).results.length
      = (get_quiz_questions db quiz_id).length := by
  simp [grade_attempt_dict, gradeQuestions_results_length]

/-- The entries' `points_possible` sum to the resolved questions' points. -/
lemma grade_results_points_eq (db : DB) (answers : List (String × String))
    (quiz_id : String) :
    ((grade_attempt_dict db answers quiz_id).results.map
        (fun r => r.points_possible)).sum
      = ((get_quiz_questions db quiz_id).map Question.points).sum := by
  simp [grade_attempt_dict, gradeQuestions_results_points]

/-- C6: grading only sees the quiz question ids that still resolve in the
question store; skipped ids contribute nothing to `total_points`, the
graded-question count or the result entries, and the `question_results`
rows persisted by a successful `complete_attempt` have `points_possible`
summing to the points of the questions existing at grading time. -/
theorem grading_skips_missing_questions (db : DB)
    (answers : List (String × String)) (quiz_id : String) (quiz : Quiz)
    (hq : get_quiz db quiz_id = some quiz) :
    get_quiz_questions db quiz_id = quiz.question_ids.filterMap (get_question db) ∧
    (grade_attempt_dict db answers quiz_id).total_points
      = ((quiz.question_ids.filterMap (get_question db)).map Question.points).sum ∧
    (grade_attempt_dict db answers quiz_id).total
      = (quiz.question_ids.filterMap (get_question db)).length ∧
    (grade_attempt_dict db answers quiz_id).results.length
      = (quiz.question_ids.filterMap (get_question db)).length ∧
    ((grade_attempt_dict db answers quiz_id).results.map
        (fun r => r.points_possible)).sum
      = ((quiz.question_ids.filterMap (get_question db)).map Question.points).sum ∧
    (∀ att attempt_id now elapsed_mins mkId db' s,
      getAttemptRow db attempt_id = some att → att.quiz_id = quiz_id →
      complete_attempt db attempt_id now elapsed_mins mkId = (db', .ok s) →
      ((db'.question_results.drop db.question_results.length).map
          (fun r => r.points_possible)).sum
        = ((quiz.question_ids.filterMap (get_question db)).map Question.points).sum) := by
  have hqs : get_quiz_questions db quiz_id
      = quiz.question_ids.filterMap (get_question db) := by
    unfold get_quiz_questions
    rw [hq]
  refine ⟨hqs, ?_, ?_, ?_, ?_, ?_⟩
  · rw [grade_total_points_eq, hqs]
  · rw [grade_total_eq, hqs]
  · rw [grade_results_length_eq, hqs]
  · rw [grade_results_points_eq, hqs]
  · intro att attempt_id now elapsed_mins mkId db' s hrow hquiz hok
    unfold complete_attempt at hok
    rw [hrow] at hok
    by_cases hdone : pyTruthyStr att.completed_at = true
    · simp only [hdone, if_true] at hok
      exact absurd (congrArg Prod.snd hok) (by simp)
    · simp only [hdone, if_false, Bool.false_eq_true] at hok
      have hdb' := congrArg Prod.fst hok
      simp only at hdb'
      subst hdb'
      simp only [List.drop_left]
      rw [mkQuestionResults_map_points, grade_results_points_eq, hquiz, hqs]

-- ── Answer-rule lemmas ──────────────────────────────────────────────────────

/-- Python set equality `set(xs) == set(ys)` holds exactly when the two
lists have the same members. -/
lemma listSetEq_iff (xs ys : List String) :
    listSetEq xs ys = true ↔ (∀ s, s ∈ xs ↔ s ∈ ys) := by
  unfold listSetEq
  simp only [Bool.and_eq_true, List.all_eq_true, List.contains_iff_exists_mem_beq,
    beq_iff_eq]
  constructor
  · rintro ⟨h1, h2⟩ s
    constructor
    · intro hs
      obtain ⟨t, ht, rfl⟩ := h1 s hs
      exact ht
    · intro hs
      obtain ⟨t, ht, rfl⟩ := h2 s hs
      exact ht
  · intro h
    exact ⟨fun s hs => ⟨s, (h s).mp hs, rfl⟩, fun s hs => ⟨s, (h s).mpr hs, rfl⟩⟩

/-- Same-membership lists are interchangeable on the left of `listSetEq`. -/
lemma listSetEq_congr_left (xs xs' ys : List String)
    (h : ∀ s, s ∈ xs ↔ s ∈ xs') :
    listSetEq xs ys = listSetEq xs' ys := by
  rw [Bool.eq_iff_iff, listSetEq_iff, listSetEq_iff]
  constructor
  · intro h1 s
    exact (h s).symm.trans (h1 s)
  · intro h1 s
    exact (h s).trans (h1 s)

/-- The test `beginsWith needle hay` holds exactly when `hay` extends `needle`. -/
lemma beginsWith_iff (needle hay : List Char) :
    beginsWith needle hay = true ↔ ∃ v, needle ++ v = hay := by
  induction needle generalizing hay with
  | nil => simp [beginsWith]
  | cons c cs ih =>
    cases hay with
    | nil => simp [beginsWith]
    | cons d ds =>
      simp only [beginsWith, Bool.and_eq_true, beq_iff_eq, ih]
      constructor
      · rintro ⟨rfl, v, rfl⟩
        exact ⟨v, rfl⟩
      · rintro ⟨v, h⟩
        rw [List.cons_append] at h
        injection h with h1 h2
        exact ⟨h1, v, h2⟩

/-- Python's substring test: `containsSeg hay needle` holds exactly when
`needle` occurs contiguously inside `hay`. -/
lemma containsSeg_iff (hay needle : List Char) :
    containsSeg hay needle = true ↔ ∃ u v, u ++ needle ++ v = hay := by
  induction hay with
  | nil =>
    simp only [containsSeg, Bool.or_eq_true, beginsWith_iff]
    constructor
    · rintro (⟨v, h⟩ | h)
      · exact ⟨[], v, by simpa using h⟩
      · cases h
    · rintro ⟨u, v, h⟩
      rcases List.append_eq_nil.mp (List.append_eq_nil.mp h).1 with ⟨rfl, rfl⟩
      left
      exact ⟨v, h⟩
  | cons c t ih =>
    simp only [containsSeg, Bool.or_eq_true, beginsWith_iff, ih]
    constructor
    · rintro (⟨v, h⟩ | ⟨u, v, h⟩)
      · exact ⟨[], v, by simpa using h⟩
      · exact ⟨c :: u, v, by simp [h]⟩
    · rintro ⟨u, v, h⟩
      cases u with
      | nil =>
        left
        exact ⟨v, by simpa using h⟩
      | cons x u' =>
        right
        rw [List.cons_append, List.cons_append] at h
        injection h with h1 h2
        exact ⟨u', v, h2⟩

/-- An empty needle occurs in every haystack (Python `"" in s`). -/
lemma containsSeg_nil (hay : List Char) : containsSeg hay [] = true := by
  cases hay <;> simp [containsSeg, beginsWith]

/-- C7: for a `multi_select` question, grading compares the comma-split,
trimmed, empty-dropped tokens of the two sides as sets, so two raw
submissions whose token lists have the same members (any order, any
duplication) always grade identically. -/
theorem multi_select_set_comparison (q : Question)
    (answers1 answers2 : List (String × String)) (h : q.type = "multi_select")
    (hset : ∀ s, s ∈ msTokens (pyNormalize (dictGet answers1 q.id))
              ↔ s ∈ msTokens (pyNormalize (dictGet answers2 q.id))) :
    question_is_correct q answers1 = question_is_correct q answers2 := by
  unfold question_is_correct answer_is_correct
  rw [h]
  rw [if_neg (by decide), if_pos (by decide)]
  exact listSetEq_congr_left _ _ _ hset

/-- C8: for a `short_answer` question, grading accepts exactly the
submissions whose normalized text equals the normalized correct answer or
contains it as a contiguous substring. -/
theorem short_answer_containment_rule (q : Question)
    (answers : List (String × String)) (h : q.type = "short_answer") :
    question_is_correct q answers = true ↔
      (pyNormalize (dictGet answers q.id) = pyNormalize q.correct_answer ∨
        ∃ u v, u ++ (pyNormalize q.correct_answer).data ++ v
          = (pyNormalize (dictGet answers q.id)).data) := by
  unfold question_is_correct answer_is_correct
  rw [h]
  rw [if_neg (by decide), if_neg (by decide), if_pos (by decide)]
  rw [Bool.or_eq_true, containsSeg_iff]
  constructor
  · rintro (h1 | h1)
    · exact Or.inr h1
    · exact Or.inl (beq_iff_eq.mp h1)
  · rintro (h1 | h1)
    · right
      exact beq_iff_eq.mpr h1
    · exact Or.inl h1

/-- C10: a `short_answer` question whose stored correct answer strips to
the empty string grades every submission — including a missing one — as
correct, with full points. -/
theorem empty_short_answer_all_correct (q : Question)
    (answers : List (String × String)) (h1 : q.type = "short_answer")
    (h2 : pyStrip q.correct_answer = "") :
    question_is_correct q answers = true ∧
    (gradeEntry answers q).points_earned = q.points := by
  have hnorm : pyNormalize q.correct_answer = "" := by
    unfold pyStrip at h2
    unfold pyNormalize
    have hnil : trimChars q.correct_answer.data = [] := by
      have := congrArg String.data h2
      simpa using this
    rw [hnil]
    rfl
  have hcorrect : question_is_correct q answers = true := by
    unfold question_is_correct answer_is_correct
    rw [h1]
    rw [if_neg (by decide), if_neg (by decide), if_pos (by decide)]
    rw [hnorm]
    rw [show ("" : String).toList = [] from rfl, containsSeg_nil]
    simp
  refine ⟨hcorrect, ?_⟩
  simp [gradeEntry, hcorrect]

-- ── Lifecycle invariants ────────────────────────────────────────────────────

/-- Attempt-row invariant: `score` and `passed` are set exactly when
`completed_at` is, and a stored completion timestamp is never the empty
string (it is an ISO timestamp from `_now()`). -/
def AttemptInv (a : Attempt) : Prop :=
  (a.score.isSome ↔ a.completed_at.isSome) ∧
  (a.passed.isSome ↔ a.completed_at.isSome) ∧
  a.completed_at ≠ some ""

/-- Store invariant: attempt ids are unique (uuid primary keys) and every
attempt row satisfies `AttemptInv`. -/
def DBInv (db : DB) : Prop :=
  (db.attempts.map Attempt.id).Nodup ∧ ∀ a ∈ db.attempts, AttemptInv a

lemma dbInv_init : DBInv DB.init := by
  constructor <;> simp [DB.init]

/-- Replacing one attempt row by a row with the same id keeps the id
column unchanged. -/
lemma map_update_map_id (l : List Attempt) (aid : String) (a' : Attempt)
    (h : a'.id = aid) :
    (l.map (fun b => if b.id == aid then a' else b)).map Attempt.id
      = l.map Attempt.id := by
  induction l with
  | nil => rfl
  | cons b t ih =>
    by_cases hb : (b.id == aid) = true
    · simp only [List.map_cons, if_pos hb, ih]
      rw [h, (beq_iff_eq.mp hb : b.id = aid)]
    · simp only [List.map_cons, if_neg hb, ih]

/-- Appending a fresh in-progress attempt preserves the store invariant. -/
lemma dbInv_append_new (db : DB) (quiz_id student_id new_id started_at : String)
    (hinv : DBInv db) (hfresh : ∀ a ∈ db.attempts, a.id ≠ new_id) :
    DBInv { db with attempts :=
      db.attempts ++ [newAttempt new_id quiz_id student_id started_at] } := by
  obtain ⟨hnd, hall⟩ := hinv
  refine ⟨?_, ?_⟩
  · rw [List.map_append, List.nodup_append]
    refine ⟨hnd, by simp, ?_⟩
    intro x hx
    obtain ⟨a, ha, rfl⟩ := List.mem_map.mp hx
    simp only [List.map_cons, List.map_nil, List.mem_singleton]
    exact fun hcontra => hfresh a ha hcontra
  · intro a ha
    rcases List.mem_append.mp ha with h | h
    · exact hall a h
    · rw [List.mem_singleton] at h
      subst h
      refine ⟨by simp [newAttempt], by simp [newAttempt], by simp [newAttempt]⟩

/-- Replacing one attempt row (same id, invariant-preserving payload) and
rewriting `question_results` preserves the store invariant. -/
lemma dbInv_update (db : DB) (aid : String) (a' : Attempt)
    (qrs : List QuestionResult) (hid : a'.id = aid) (hainv : AttemptInv a')
    (hinv : DBInv db) :
    DBInv { db with
      attempts := db.attempts.map (fun b => if b.id == aid then a' else b)
      question_results := qrs } := by
  obtain ⟨hnd, hall⟩ := hinv
  refine ⟨?_, ?_⟩
  · rw [map_update_map_id db.attempts aid a' hid]
    exact hnd
  · intro b hb
    obtain ⟨c, hc, rfl⟩ := List.mem_map.mp hb
    by_cases h : (c.id == aid) = true
    · simpa [h] using hainv
    · simpa [h] using hall c hc

/-- Every public operation preserves the store invariant. -/
lemma step_preserves_inv {db db' : DB} (h : Step db db') (hinv : DBInv db) :
    DBInv db' := by
  cases h with
  | catalog qs zs => exact hinv
  | start quiz_id student_id new_id started_at hfresh =>
    unfold start_attempt
    cases hq : get_quiz db quiz_id with
    | none => exact hinv
    | some quiz =>
      by_cases hc : countPrevAttempts db quiz_id student_id ≥ quiz.max_attempts
      · simp only [if_pos hc]
        exact hinv
      · simp only [if_neg hc]
        exact dbInv_append_new db quiz_id student_id new_id started_at hinv hfresh
  | submit attempt_id question_id answer =>
    unfold submit_answer
    cases hrow : getAttemptRow db attempt_id with
    | none => exact hinv
    | some a =>
      by_cases hdone : pyTruthyStr a.completed_at = true
      · simp only [if_pos hdone]
        exact hinv
      · simp only [if_neg hdone]
        have hrow' : db.attempts.find? (fun b => b.id == attempt_id) = some a :=
          hrow
        have hmem := List.mem_of_find?_eq_some hrow'
        have hp := List.find?_some hrow'
        have hid : a.id = attempt_id := beq_iff_eq.mp hp
        exact dbInv_update db attempt_id _ _ hid
          (by
            obtain ⟨h1, h2, h3⟩ := hinv.2 a hmem
            exact ⟨h1, h2, h3⟩)
          hinv
  | complete attempt_id now elapsed_mins mkId hnow =>
    unfold complete_attempt
    cases hrow : getAttemptRow db attempt_id with
    | none => exact hinv
    | some a =>
      by_cases hdone : pyTruthyStr a.completed_at = true
      · simp only [if_pos hdone]
        exact hinv
      · simp only [if_neg hdone]
        have hrow' : db.attempts.find? (fun b => b.id == attempt_id) = some a :=
          hrow
        have hp := List.find?_some hrow'
        have hid : a.id = attempt_id := beq_iff_eq.mp hp
        exact dbInv_update db attempt_id _ _ hid
          (by
            refine ⟨by simp, by simp, ?_⟩
            simp only [ne_eq, Option.some.injEq]
            exact hnow)
          hinv

/-- Every reachable store satisfies the invariant. -/
lemma reachable_inv {db : DB} (h : Reachable db) : DBInv db := by
  induction h with
  | refl => exact dbInv_init
  | tail hsteps hstep ih => exact step_preserves_inv hstep ih

/-- With unique ids, looking an attempt row up by its own id finds it. -/
lemma find?_id_of_mem (l : List Attempt) (a : Attempt) (hmem : a ∈ l)
    (hnd : (l.map Attempt.id).Nodup) :
    l.find? (fun b => b.id == a.id) = some a := by
  induction l with
  | nil => cases hmem
  | cons b t ih =>
    rw [List.map_cons, List.nodup_cons] at hnd
    obtain ⟨hnotin, hndt⟩ := hnd
    rcases List.mem_cons.mp hmem with rfl | hmem'
    · simp [List.find?]
    · have hbf : (b.id == a.id) = false := by
        rw [beq_eq_false_iff_ne]
        intro hbeq
        rw [hbeq] at hnotin
        exact hnotin (List.mem_map_of_mem Attempt.id hmem')
      simp only [List.find?, hbf]
      exact ih hmem' hndt

/-- C2: once an attempt's `completed_at` is set, `submit_answer` and
`complete_attempt` both return the AlreadyCompleted error and leave the
whole store — attempt rows, answers, question results — unchanged. -/
theorem completed_attempt_mutations_rejected (db : DB) (a : Attempt)
    (t : String) (hreach : Reachable db) (hmem : a ∈ db.attempts)
    (hc : a.completed_at = some t) (question_id answer now : String)
    (elapsed_mins : ℚ) (mkId : Nat → String) :
    submit_answer db a.id question_id answer = (db, .error .alreadyCompleted) ∧
    complete_attempt db a.id now elapsed_mins mkId
      = (db, .error .alreadyCompleted) := by
  obtain ⟨hnd, hall⟩ := reachable_inv hreach
  have hrow : getAttemptRow db a.id = some a := find?_id_of_mem db.attempts a hmem hnd
  have htruthy : pyTruthyStr a.completed_at = true := by
    obtain ⟨-, -, hne⟩ := hall a hmem
    have ht : t ≠ "" := by
      intro h
      exact hne (by rw [hc, h])
    rw [hc]
    simpa [pyTruthyStr] using ht
  constructor
  · unfold submit_answer
    rw [hrow]
    simp [htruthy]
  · unfold complete_attempt
    rw [hrow]
    simp [htruthy]

/-- C4: in every store reachable through the public operations, an
attempt's `score` is set exactly when `completed_at` is, and likewise for
`passed`. -/
theorem score_passed_iff_completed (db : DB) (a : Attempt)
    (hreach : Reachable db) (hmem : a ∈ db.attempts) :
    (a.score.isSome ↔ a.completed_at.isSome) ∧
    (a.passed.isSome ↔ a.completed_at.isSome) := by
  obtain ⟨-, hall⟩ := reachable_inv hreach
  obtain ⟨h1, h2, -⟩ := hall a hmem
  exact ⟨h1, h2⟩

/-- C3: when the quiz resolves, `start_attempt` fails with LimitExceeded
(and changes nothing) exactly when the student's attempt count on the
quiz — any status — has reached `max_attempts`; otherwise it persists
exactly one new in-progress attempt with empty answers and null
score / completed_at / time_taken_mins / passed. -/
theorem start_attempt_limit_spec (db : DB)
    (quiz_id student_id new_id started_at : String) (quiz : Quiz)
    (hq : get_quiz db quiz_id = some quiz) :
    (quiz.max_attempts ≤ countPrevAttempts db quiz_id student_id →
      start_attempt db quiz_id student_id new_id started_at
        = (db, .error (.limitExceeded quiz.max_attempts))) ∧
    (countPrevAttempts db quiz_id student_id < quiz.max_attempts →
      start_attempt db quiz_id student_id new_id started_at
        = ({ db with attempts := db.attempts
              ++ [newAttempt new_id quiz_id student_id started_at] },
           .ok (newAttempt new_id quiz_id student_id started_at))) := by
  constructor
  · intro hc
    unfold start_attempt
    rw [hq]
    simp [hc]
  · intro hc
    unfold start_attempt
    rw [hq]
    simp [Nat.not_le.mpr hc]

-- ── Concrete witness data ───────────────────────────────────────────────────

/-- A quiz with no questions, used to drive the lifecycle witnesses. -/
def quizW : Quiz :=
  { id := "Z", title := "Demo", description := "", question_ids := []
    time_limit_mins := 10, passing_score := 50, shuffle_questions := false
    shuffle_options := false, allow_review := true, max_attempts := 3
    created_at := "t0" }

def dbW0 : DB :=
  { questions := [], quizzes := [quizW], attempts := [], question_results := [] }

def dbW1 : DB := (start_attempt dbW0 "Z" "s1" "a1" "t1").1

def dbW2 : DB := (complete_attempt dbW1 "a1" "t2" 0 (fun _ => "r0")).1

/-- The completed attempt row stored in `dbW2`. -/
def attW : Attempt :=
  { id := "a1", quiz_id := "Z", student_id := "s1", answers := []
    score := some 0, started_at := "t1", completed_at := some "t2"
    time_taken_mins := some 0, passed := some false }

lemma reachable_dbW2 : Reachable dbW2 := by
  have h0 : Reachable dbW0 :=
    Relation.ReflTransGen.single (Step.catalog DB.init [] [quizW])
  have h1 : Reachable dbW1 :=
    h0.tail (Step.start dbW0 "Z" "s1" "a1" "t1" (by intro a ha; cases ha))
  exact h1.tail (Step.complete dbW1 "a1" "t2" 0 (fun _ => "r0") (by decide))

/-- Witness for C2 at a concrete completed attempt. -/
theorem completed_attempt_mutations_rejected_witness :
    attW ∈ dbW2.attempts ∧ attW.completed_at = some "t2" ∧
    submit_answer dbW2 attW.id "q9" "x" = (dbW2, .error .alreadyCompleted) ∧
    complete_attempt dbW2 attW.id "t3" 5 (fun _ => "r1")
      = (dbW2, .error .alreadyCompleted) := by
  have hmem : attW ∈ dbW2.attempts := by decide
  have h := completed_attempt_mutations_rejected dbW2 attW "t2" reachable_dbW2
    hmem rfl "q9" "x" "t3" 5 (fun _ => "r1")
  exact ⟨hmem, rfl, h.1, h.2⟩

/-- Witness for C4 at a concrete completed attempt. -/
theorem score_passed_iff_completed_witness :
    attW ∈ dbW2.attempts ∧
    (attW.score.isSome ↔ attW.completed_at.isSome) ∧
    (attW.passed.isSome ↔ attW.completed_at.isSome) := by
  have hmem : attW ∈ dbW2.attempts := by decide
  have h := score_passed_iff_completed dbW2 attW reachable_dbW2 hmem
  exact ⟨hmem, h.1, h.2⟩

/-- An in-progress attempt row on `quizW` by student `s1`. -/
def attL (i : String) : Attempt :=
  { id := i, quiz_id := "Z", student_id := "s1", answers := []
    score := none, started_at := "t0", completed_at := none
    time_taken_mins := none, passed := none }

/-- A store whose student `s1` already has three attempts on `quizW`. -/
def dbL : DB :=
  { questions := [], quizzes := [quizW]
    attempts := [attL "x1", attL "x2", attL "x3"], question_results := [] }

/-- Witness for C3: below the limit one attempt is persisted; at the
limit the call fails with LimitExceeded and changes nothing. -/
theorem start_attempt_limit_spec_witness :
    get_quiz dbW0 "Z" = some quizW ∧
    countPrevAttempts dbW0 "Z" "s1" < quizW.max_attempts ∧
    start_attempt dbW0 "Z" "s1" "a1" "t1"
      = ({ dbW0 with attempts := [newAttempt "a1" "Z" "s1" "t1"] },
         .ok (newAttempt "a1" "Z" "s1" "t1")) ∧
    quizW.max_attempts ≤ countPrevAttempts dbL "Z" "s1" ∧
    start_attempt dbL "Z" "s1" "a9" "t9"
      = (dbL, .error (.limitExceeded quizW.max_attempts)) := by
  have h1 := (start_attempt_limit_spec dbW0 "Z" "s1" "a1" "t1" quizW rfl).2
    (by decide)
  have h2 := (start_attempt_limit_spec dbL "Z" "s1" "a9" "t9" quizW rfl).1
    (by decide)
  exact ⟨rfl, by decide, h1, by decide, h2⟩

/-- A 3-point question referenced by a quiz together with a dangling id. -/
def qC6 : Question :=
  { id := "q1", text := "Q1", type := "multiple_choice"
    options := [("a", "3"), ("b", "4")], correct_answer := "b"
    difficulty := "easy", tags := [], explanation := "", points := 3
    created_at := "t0" }

def quizC6 : Quiz := { quizW with id := "Z6", question_ids := ["q1", "gone"] }

def dbC6 : DB :=
  { questions := [qC6], quizzes := [quizC6], attempts := []
    question_results := [] }

/-- Witness for C6: the dangling id `gone` is skipped, so totals come
from `q1` alone. -/
theorem grading_skips_missing_questions_witness :
    get_quiz dbC6 "Z6" = some quizC6 ∧
    (grade_attempt_dict dbC6 [] "Z6").total_points = 3 ∧
    (grade_attempt_dict dbC6 [] "Z6").total = 1 ∧
    ((grade_attempt_dict dbC6 [] "Z6").results.map
        (fun r => r.points_possible)).sum = 3 := by
  have h := grading_skips_missing_questions dbC6 [] "Z6" quizC6 rfl
  exact ⟨rfl, h.2.1.trans (by decide), h.2.2.1.trans (by decide),
    h.2.2.2.2.1.trans (by decide)⟩

/-- A multi-select question expecting `a,c`. -/
def qMS : Question :=
  { id := "m1", text := "Pick two", type := "multi_select", options := []
    correct_answer := "a,c", difficulty := "easy", tags := []
    explanation := "", points := 1, created_at := "t0" }

/-- Witness for C7: submitting `c,a` grades the same as `a,c`, hence
correct. -/
theorem multi_select_set_comparison_witness :
    (∀ s, s ∈ msTokens (pyNormalize (dictGet [("m1", "c,a")] "m1"))
        ↔ s ∈ msTokens (pyNormalize (dictGet [("m1", "a,c")] "m1"))) ∧
    question_is_correct qMS [("m1", "c,a")] = true := by
  have e1 : msTokens (pyNormalize (dictGet [("m1", "c,a")] "m1"))
      = ["c", "a"] := by decide
  have e2 : msTokens (pyNormalize (dictGet [("m1", "a,c")] "m1"))
      = ["a", "c"] := by decide
  have hset : ∀ s, s ∈ msTokens (pyNormalize (dictGet [("m1", "c,a")] "m1"))
      ↔ s ∈ msTokens (pyNormalize (dictGet [("m1", "a,c")] "m1")) := by
    intro s
    rw [e1, e2]
    constructor <;> intro hs <;> simp only [List.mem_cons] at hs ⊢ <;> tauto
  refine ⟨hset, ?_⟩
  rw [multi_select_set_comparison qMS [("m1", "c,a")] [("m1", "a,c")] rfl hset]
  decide

/-- A short-answer question expecting `paris`. -/
def qSA : Question :=
  { id := "s1", text := "Capital of France?", type := "short_answer"
    options := [], correct_answer := "paris", difficulty := "easy"
    tags := [], explanation := "", points := 1, created_at := "t0" }

/-- Witness for C8: `the capital is paris` contains `paris`, so it grades
correct. -/
theorem short_answer_containment_rule_witness :
    qSA.type = "short_answer" ∧
    question_is_correct qSA [("s1", "the capital is paris")] = true := by
  refine ⟨rfl, ?_⟩
  rw [short_answer_containment_rule qSA [("s1", "the capital is paris")] rfl]
  right
  exact ⟨"the capital is ".data, [], by decide⟩

/-- A short-answer question whose correct answer is whitespace only. -/
def qSAE : Question :=
  { id := "e1", text := "Anything", type := "short_answer", options := []
    correct_answer := "   ", difficulty := "easy", tags := []
    explanation := "", points := 2, created_at := "t0" }

/-- Witness for C10: with a whitespace-only correct answer even the
missing submission earns full points. -/
theorem empty_short_answer_all_correct_witness :
    pyStrip qSAE.correct_answer = "" ∧
    question_is_correct qSAE [] = true ∧
    (gradeEntry [] qSAE).points_earned = 2 := by
  have h := empty_short_answer_all_correct qSAE [] rfl (by decide)
  exact ⟨by decide, h.1, h.2⟩

-- ── Adaptive selector lemmas ────────────────────────────────────────────────

/-- Dropping the difficulty filter only enlarges `list_questions`. -/
lemma mem_list_questions_any_difficulty (db : DB) (tags : List String)
    (d : String) (q : Question) (h : q ∈ list_questions db tags (some d)) :
    q ∈ list_questions db tags none := by
  unfold list_questions at h ⊢
  by_cases ht : tags.isEmpty
  · simp only [if_pos ht] at h ⊢
    exact List.mem_of_mem_filter h
  · simp only [if_neg ht] at h ⊢
    rw [List.mem_filter] at h ⊢
    exact ⟨List.mem_of_mem_filter h.1, h.2⟩

/-- C9: a quiz built by the adaptive selector never contains a question id
the student has a correct result for (the exclusion set joins results to
the student's attempts across all quizzes), and when the exclusion leaves
nothing even at any difficulty the call fails with NoCandidates. -/
theorem adaptive_quiz_exclusion (db : DB) (student_id : String)
    (topic_tags : List String) (target_difficulty : String)
    (num_questions : Nat) (new_quiz_id created_at : String) :
    (∀ quiz, (build_adaptive_quiz db student_id topic_tags target_difficulty
        num_questions new_quiz_id created_at).2 = .ok quiz →
      ∀ qid ∈ quiz.question_ids,
        answeredCorrectly db student_id qid = false) ∧
    (((list_questions db topic_tags none).filter
        (fun q => !(answeredCorrectly db student_id q.id))).isEmpty = true →
      (build_adaptive_quiz db student_id topic_tags target_difficulty
        num_questions new_quiz_id created_at).2 = .error .noCandidates) := by
  constructor
  · intro quiz hok qid hqid
    unfold build_adaptive_quiz at hok
    dsimp only at hok
    split at hok
    · split at hok
      · simp at hok
      · dsimp only at hok
        injection hok with hok
        subst hok
        dsimp only at hqid
        obtain ⟨q, hq, rfl⟩ := List.mem_map.mp hqid
        have hq' := List.mem_of_mem_take hq
        have h2 := (List.mem_filter.mp hq').2
        simpa using h2
    · split at hok
      · simp at hok
      · dsimp only at hok
        injection hok with hok
        subst hok
        dsimp only at hqid
        obtain ⟨q, hq, rfl⟩ := List.mem_map.mp hqid
        have hq' := List.mem_of_mem_take hq
        have h2 := (List.mem_filter.mp hq').2
        simpa using h2
  · intro hW
    have hWnil : (list_questions db topic_tags none).filter
        (fun q => !(answeredCorrectly db student_id q.id)) = [] :=
      List.isEmpty_iff.mp hW
    have hc0nil : (list_questions db topic_tags (some target_difficulty)).filter
        (fun q => !(answeredCorrectly db student_id q.id)) = [] := by
      rw [List.eq_nil_iff_forall_not_mem]
      intro q hq
      have hmemW : q ∈ (list_questions db topic_tags none).filter
          (fun q => !(answeredCorrectly db student_id q.id)) := by
        rw [List.mem_filter] at hq ⊢
        exact ⟨mem_list_questions_any_difficulty db topic_tags
          target_difficulty q hq.1, hq.2⟩
      rw [hWnil] at hmemW
      cases hmemW
    unfold build_adaptive_quiz
    dsimp only
    rw [hc0nil, hWnil]
    simp

/-- A hard question the student already answered correctly (on a quiz
that no longer even exists in the store). -/
def qAd : Question :=
  { id := "qA", text := "A", type := "true_false", options := []
    correct_answer := "true", difficulty := "hard", tags := ["t"]
    explanation := "", points := 1, created_at := "t0" }

/-- A medium question not yet answered correctly. -/
def qAd2 : Question :=
  { id := "qB", text := "B", type := "true_false", options := []
    correct_answer := "true", difficulty := "medium", tags := ["t"]
    explanation := "", points := 1, created_at := "t0" }

/-- The completed attempt holding the correct result for `qA`. -/
def attAd : Attempt :=
  { id := "aA", quiz_id := "ZZ", student_id := "s1", answers := []
    score := some 100, started_at := "t0", completed_at := some "t1"
    time_taken_mins := some 0, passed := some true }

def qrAd : QuestionResult :=
  { id := "r1", attempt_id := "aA", question_id := "qA"
    student_answer := "true", is_correct := true, points_earned := 1
    points_possible := 1 }

/-- Every tagged question is already mastered: selection must fail. -/
def dbN : DB :=
  { questions := [qAd], quizzes := [], attempts := [attAd]
    question_results := [qrAd] }

/-- One fresh question (`qB`) remains available. -/
def dbB9 : DB :=
  { questions := [qAd, qAd2], quizzes := [], attempts := [attAd]
    question_results := [qrAd] }

/-- The quiz the selector builds over `dbB9`. -/
def quizB9 : Quiz :=
  { id := "nq", title := "Adaptive Quiz – t"
    description := "Auto-generated adaptive quiz for student s1"
    question_ids := ["qB"], time_limit_mins := 3, passing_score := 70
    shuffle_questions := false, shuffle_options := false
    allow_review := true, max_attempts := 3, created_at := "t9" }

/-- Witness for C9: with every candidate excluded the call fails with
NoCandidates, and a built quiz only picks unmastered ids. -/
theorem adaptive_quiz_exclusion_witness :
    (build_adaptive_quiz dbN "s1" ["t"] "medium" 10 "nq" "t9").2
      = .error .noCandidates ∧
    (build_adaptive_quiz dbB9 "s1" ["t"] "medium" 10 "nq" "t9").2
      = .ok quizB9 ∧
    answeredCorrectly dbB9 "s1" "qB" = false := by
  have h2 := (adaptive_quiz_exclusion dbN "s1" ["t"] "medium" 10 "nq" "t9").2
    (by decide)
  have hok : (build_adaptive_quiz dbB9 "s1" ["t"] "medium" 10 "nq" "t9").2
      = .ok quizB9 := by rfl
  have h1 := (adaptive_quiz_exclusion dbB9 "s1" ["t"] "medium" 10 "nq" "t9").1
    quizB9 hok "qB" (by decide)
  exact ⟨h2, hok, h1⟩

-- ── Analytics ranking: concrete evaluation ──────────────────────────────────

/-- A one-point true/false question. -/
def qH (i : String) : Question :=
  { id := i, text := i, type := "true_false", options := []
    correct_answer := "true", difficulty := "easy", tags := []
    explanation := "", points := 1, created_at := "t0" }

def quizC1 : Quiz := { quizW with id := "ZA", question_ids := ["q1", "q2"] }

/-- A completed attempt row on `quizC1`. -/
def attC1 (i : String) : Attempt :=
  { id := i, quiz_id := "ZA", student_id := "s" ++ i, answers := []
    score := some 0, started_at := "t0", completed_at := some "t1"
    time_taken_mins := some 1, passed := some false }

def qrC1 (rid aid qid : String) (c : Bool) : QuestionResult :=
  { id := rid, attempt_id := aid, question_id := qid, student_answer := ""
    is_correct := c, points_earned := if c then 1 else 0
    points_possible := 1 }

/-- Two completed attempts: everyone misses `q1` (0% correct), half get
`q2` (50% correct). -/
def dbC1 : DB :=
  { questions := [qH "q1", qH "q2"], quizzes := [quizC1]
    attempts := [attC1 "a1", attC1 "a2"]
    question_results := [qrC1 "r1" "a1" "q1" false, qrC1 "r2" "a2" "q1" false,
      qrC1 "r3" "a1" "q2" true, qrC1 "r4" "a2" "q2" false] }

/-- C1: on `dbC1` the un-sorted stats are `q1 ↦ 0%`, `q2 ↦ 50%`, yet the
sort key `x["correct_rate"] or 100` maps the falsy `0.0` to `100`, so the
sorted list is `[q2, q1]` — not ascending by `correct_rate` — `q2` leads
`hardest_questions` and the 0%-correct `q1` leads `easiest_questions`. -/
theorem analytics_zero_rate_sorted_last :
    (questionStats dbC1 "ZA").map (fun s => (s.question_id, s.correct_rate))
      = [("q1", some 0), ("q2", some 50)] ∧
    (sortedQuestionStats dbC1 "ZA").map (fun s => s.question_id)
      = ["q2", "q1"] ∧
    (hardestQuestions dbC1 "ZA").map (fun s => s.question_id) = ["q2", "q1"] ∧
    (easiestQuestions dbC1 "ZA").map (fun s => s.question_id) = ["q1", "q2"] := by
  refine ⟨by decide, by decide, by decide, by decide⟩
